import Mathlib

/-!
Shallow embedding of the dock-refine docking pipeline (GoMasatomo/dock-refine).

The embedding translates the Python sources:
  * `dockmodules/run_clustering.py`   — `parse_cluster_log`
  * `dockmodules/get_interface_residue.py` — `get_interface_residues`
  * `dockmodules/haddock_analysis.py` — `parse_cluster_score`,
    `parse_ener_and_edesolv_files`, `get_representative_structure`
  * `run_docking.py`                  — `run_haddock_docking_for_cluster` (tail),
    `docking_pipeline` (parallel fan-out / collection)

Python floats are modelled as exact rationals (`ℚ`, plus an explicit
infinity/NaN wrapper where the source manipulates `float('inf')`); decimal
literals parse exactly, and none of the verified claims depends on binary
rounding.  Python strings are modelled as `String` / `List Char` with the
ASCII whitespace set.  Fallible Python code (exceptions) is modelled with
`Except`.
-/

namespace DockRefine

/-! ### Python string primitives

`isSpaceChar` is Python's `str.strip()` / `\s` whitespace set (ASCII part;
the logs consumed by the sources are ASCII). -/

def isSpaceChar (c : Char) : Bool :=
  c == ' ' || c == '\t' || c == '\n' || c == '\r' || c == '\x0b' || c == '\x0c'

def isDigitChar (c : Char) : Bool :=
  c.isDigit

/-- Python `str.strip()`: drop whitespace from both ends. -/
def pyStrip (cs : List Char) : List Char :=
  ((cs.dropWhile isSpaceChar).reverse.dropWhile isSpaceChar).reverse

/-- Split a text on `'\n'`.  Python's `splitlines` additionally drops a final
empty piece after a trailing newline and recognises `\r`; both differences are
invisible to the parsers below, which skip blank lines (a trailing `\r` is
removed by `pyStrip`). -/
def splitOnNl : List Char → List (List Char)
  | [] => [[]]
  | c :: rest =>
    if c = '\n' then [] :: splitOnNl rest
    else
      match splitOnNl rest with
      | [] => [[c]]
      | l :: ls => (c :: l) :: ls

/-- Maximal runs of characters satisfying `keep`, in order.
With `keep = isDigitChar` this is Python's `re.findall(r"\d+", s)`;
with `keep = (!isSpaceChar ·)` it is Python's `str.split()`. -/
def tokenizeRuns (keep : Char → Bool) : List Char → List String
  | [] => []
  | c :: rest =>
    if keep c then
      String.mk (c :: rest.takeWhile keep) :: tokenizeRuns keep (rest.dropWhile keep)
    else
      tokenizeRuns keep rest
termination_by l => l.length
decreasing_by
  · exact Nat.lt_succ_of_le ((List.dropWhile_sublist keep).length_le)
  · exact Nat.lt_succ_of_le (Nat.le_refl _)

/-- Python `re.findall(r"\d+", s)`: all maximal digit runs, textual order. -/
def findallDigits (cs : List Char) : List String :=
  tokenizeRuns isDigitChar cs

/-- Python `str.split()` (split on whitespace runs, no empty tokens). -/
def pySplitWs (cs : List Char) : List String :=
  tokenizeRuns (fun c => !isSpaceChar c) cs

/-- Value of a digit run (Python `int` of a `\d+` match). -/
def digitsToNat (ds : List Char) : Nat :=
  ds.foldl (fun n c => 10 * n + (c.toNat - 48)) 0

/-! ### Cluster log parser (`dockmodules/run_clustering.py`, `parse_cluster_log`)

The header pattern is `^\s*(\d+)\s*\|\s*(\d+)\s*([\d.]*)\s*\|\s*(\d+)\s*([\d.]*)\s*\|`.
The matcher below is greedy and deterministic; this is equivalent to Python's
backtracking semantics for this particular pattern, because every position a
quantified class (`\s*`, `\d+`, `[\d.]*`) could give back is still followed by
a character of that same class, which can never match the literal `|` that
comes next — so shrinking a greedy match never turns a failure into a
success, nor changes the groups of a success. -/

/-- Errors raised by the parsing code: `KeyError` from
`pd.DataFrame([])["Members"]`, `ValueError` from `float()`. -/
inductive PyError where
  | keyError (key : String)
  | valueError
deriving Repr, DecidableEq

def dropSpaces (cs : List Char) : List Char :=
  cs.dropWhile isSpaceChar

def isNumClassChar (c : Char) : Bool :=
  isDigitChar c || c == '.'

/-- The five captured groups of the header regex and the text after the final
matched `|` (Python `line[match.end():]`). -/
structure HeaderGroups where
  g1 : List Char
  g2 : List Char
  g3 : List Char
  g4 : List Char
  g5 : List Char
  rest : List Char
deriving Repr, DecidableEq

/-- Model of `re.match` of the header pattern against a line. -/
def matchHeader (cs : List Char) : Option HeaderGroups :=
  let cs0 := dropSpaces cs
  let g1 := cs0.takeWhile isDigitChar
  if g1.isEmpty then none else
  match dropSpaces (cs0.dropWhile isDigitChar) with
  | '|' :: cs2 =>
    let cs2' := dropSpaces cs2
    let g2 := cs2'.takeWhile isDigitChar
    if g2.isEmpty then none else
    let cs3 := dropSpaces (cs2'.dropWhile isDigitChar)
    let g3 := cs3.takeWhile isNumClassChar
    match dropSpaces (cs3.dropWhile isNumClassChar) with
    | '|' :: cs5 =>
      let cs5' := dropSpaces cs5
      let g4 := cs5'.takeWhile isDigitChar
      if g4.isEmpty then none else
      let cs6 := dropSpaces (cs5'.dropWhile isDigitChar)
      let g5 := cs6.takeWhile isNumClassChar
      match dropSpaces (cs6.dropWhile isNumClassChar) with
      | '|' :: rest => some ⟨g1, g2, g3, g4, g5, rest⟩
      | _ => none
    | _ => none
  | _ => none

/-- Python `float(s)` for a string `s` drawn from the class `[\d.]*`: defined
iff `s` has at least one digit and at most one dot (e.g. `"1."`, `".5"`,
`"0.35"`); `none` models the `ValueError` raised otherwise (e.g. `"."`,
`"1.2.3"`). -/
def numClassFloat (ds : List Char) : Option ℚ :=
  if ds.any isDigitChar ∧ ds.count '.' ≤ 1 then
    let ip := ds.takeWhile isDigitChar
    let fp := match ds.dropWhile isDigitChar with
      | '.' :: fs => fs
      | _ => []
    some ((digitsToNat ip : ℚ) + (digitsToNat fp : ℚ) / ((10 : ℚ) ^ fp.length))
  else none

/-- Model of `float(g) if g else np.nan` for a metric group; `Option ℚ` with `none`
standing for NaN, wrapped in `Except` for the possible `ValueError`. -/
def metricField (g : List Char) : Except PyError (Option ℚ) :=
  if g.isEmpty then .ok none
  else
    match numClassFloat g with
    | some q => .ok (some q)
    | none => .error .valueError

/-- One cluster of the log (`current_cluster` dictionary in the source).
`members` are the textual member tokens, in appearance order. -/
structure ClusterRecord where
  cluster_id : Nat
  num_structures : Nat
  rmsd : Option ℚ
  middle_id : Nat
  middle_rmsd : Option ℚ
  members : List String
deriving Repr, DecidableEq

/-- Header-line handling of the loop body: `none` if the line is not a
header, otherwise the freshly built record (or the `ValueError` escaping from
`float`). -/
def headerRecord (line : List Char) : Option (Except PyError ClusterRecord) :=
  match matchHeader line with
  | none => none
  | some g =>
    some (do
      let r ← metricField g.g3
      let mr ← metricField g.g5
      pure ⟨digitsToNat g.g1, digitsToNat g.g2, r, digitsToNat g.g4, mr,
            findallDigits g.rest⟩)

/-- The line loop of `parse_cluster_log`: `cur` is `current_cluster`, `acc`
is `clusters`. -/
def parseLines : List (List Char) → Option ClusterRecord → List ClusterRecord →
    Except PyError (List ClusterRecord)
  | [], cur, acc => .ok (acc ++ cur.toList)
  | l :: ls, cur, acc =>
    let line := pyStrip l
    if line.isEmpty then parseLines ls cur acc
    else
      match headerRecord line with
      | some (.error e) => .error e
      | some (.ok r) => parseLines ls (some r) (acc ++ cur.toList)
      | none =>
        match cur with
        | some c => parseLines ls (some { c with members := c.members ++ findallDigits line }) acc
        | none => parseLines ls none acc

/-- A row of the returned DataFrame: the parsed record plus the `Members`
column after `", ".join`. -/
structure ClusterRow where
  record : ClusterRecord
  members_str : String
deriving Repr, DecidableEq

def joinMembers (ms : List String) : String :=
  String.intercalate ", " ms

/-- Model of `parse_cluster_log` on an in-memory log text (the string-input path of the
source; the `.log` file-reading branch only changes where the text comes
from).  After the loop the source builds `pd.DataFrame(clusters)` and then
evaluates `df["Members"]`: on an empty record list the frame has no columns
at all, so that subscript raises `KeyError('Members')`. -/
def parse_cluster_log (text : String) : Except PyError (List ClusterRow) := do
  let clusters ← parseLines (splitOnNl text.data) none []
  if clusters.isEmpty then
    .error (.keyError "Members")
  else
    .ok (clusters.map (fun c => ⟨c, joinMembers c.members⟩))

/-! ### Interface residues (`dockmodules/get_interface_residue.py`,
`get_interface_residues`)

Coordinates are rationals; Biopython's `atom_a - atom_b` is the Euclidean
distance, and the float test `dist ≤ d` is modelled exactly as
`0 ≤ d ∧ dist² ≤ d·d` (equivalent over the reals, since a distance is
nonnegative and `√x ≤ d ↔ x ≤ d²` for `d ≥ 0`, while `dist ≤ d` is false for
every negative `d`).

A residue carries its sequence number (`get_id()[1]`); distinct entries of a
chain list are distinct Biopython residue objects, which may share a sequence
number (insertion codes), and the Python `set()` of residue objects keeps
them distinct.  The source sorts the interface set by sequence number and
maps to sequence numbers; the resulting number list is the sorted multiset of
the interface residues' numbers, which is what `insertionSort` of the mapped
list produces. -/

structure Atom where
  x : ℚ
  y : ℚ
  z : ℚ
deriving Repr, DecidableEq

structure Residue where
  resseq : Int
  atoms : List Atom
deriving Repr, DecidableEq

/-- Squared Euclidean distance between two atoms. -/
def dist2 (a b : Atom) : ℚ :=
  (a.x - b.x) * (a.x - b.x) + (a.y - b.y) * (a.y - b.y) + (a.z - b.z) * (a.z - b.z)

/-- Model of the `atom_a - atom_b <= distance` test of the source. -/
def atomsClose (d : ℚ) (a b : Atom) : Bool :=
  decide (0 ≤ d) && decide (dist2 a b ≤ d * d)

/-- The atom×atom scan for one residue pair: the `break`/`else`/`break`
construct of the source stops at the first close pair, i.e. it computes
existence. -/
def residuesClose (d : ℚ) (ra rb : Residue) : Bool :=
  ra.atoms.any (fun pa => rb.atoms.any (fun pb => atomsClose d pa pb))

/-- Model of `get_interface_residues` restricted to its two chains (the PDB loading
and chain lookup just produce the two residue lists).  Returns the per-chain
sorted lists of interface residue sequence numbers
(`{chain1: [...], chain2: [...]}`). -/
def get_interface_residues (d : ℚ) (chainA chainB : List Residue) :
    List Int × List Int :=
  (List.insertionSort (· ≤ ·)
     ((chainA.filter (fun ra => chainB.any (fun rb => residuesClose d ra rb))).map
       Residue.resseq),
   List.insertionSort (· ≤ ·)
     ((chainB.filter (fun rb => chainA.any (fun ra => residuesClose d ra rb))).map
       Residue.resseq))

/-! ### Energy-table merge (`dockmodules/haddock_analysis.py`,
`parse_ener_and_edesolv_files` / `get_representative_structure`)

A parsed `_ener` / `_Edesolv` table is a list of rows; `struc` is the
`#struc` join column and `data` the remaining (already parsed) columns.
`pdMergeInner` is `pd.merge(..., on="#struc", how="inner")`: one output row
per matching pair, left-key appearance order (pandas preserves the left key
order for an inner join), right occurrence order within one left key. -/

structure EnergyRow (α : Type) where
  struc : String
  data : α
deriving Repr, DecidableEq

structure MergedRow (α β : Type) where
  struc : String
  left : α
  right : β
deriving Repr, DecidableEq

def pdMergeInner {α β : Type} (left : List (EnergyRow α)) (right : List (EnergyRow β)) :
    List (MergedRow α β) :=
  left.flatMap (fun l =>
    (right.filter (fun r => r.struc == l.struc)).map
      (fun r => ⟨l.struc, l.data, r.data⟩))

/-- The body of `parse_ener_and_edesolv_files` after the two `parse_file`
calls, as a function of the two parsed tables.  Returns the merged table
(the Python return value) and the value of the
`representative_structure_path` attribute after the call (`none` = the
attribute keeps its `__init__` value `None`).  Note the source `raise`s
nothing here: an empty merge or an empty input table yields a normally
returned empty table. -/
def parse_ener_and_edesolv_files {α β : Type} (ener : List (EnergyRow α))
    (edesolv : List (EnergyRow β)) (directory : String) :
    List (MergedRow α β) × Option String :=
  if !ener.isEmpty && !edesolv.isEmpty then
    match pdMergeInner ener edesolv with
    | [] => (pdMergeInner ener edesolv, none)
    | m :: _ => (pdMergeInner ener edesolv, some (directory ++ "/" ++ m.struc))
  else ([], none)

/-- Model of `get_representative_structure`: re-runs the merge and keeps only the row
`merged_df.iloc[[0]]`, or an empty frame when the merge is empty. -/
def get_representative_structure {α β : Type} (ener : List (EnergyRow α))
    (edesolv : List (EnergyRow β)) (directory : String) :
    List (MergedRow α β) × Option String :=
  match parse_ener_and_edesolv_files ener edesolv directory with
  | ([], p) => ([], p)
  | (m :: _, p) => ([m], p)

/-! ### Parallel fan-out (`run_docking.py`, `docking_pipeline` lines 174-178)

`multiprocessing.Pool.starmap` runs every submitted task to completion, but
its return re-raises a worker's exception instead of returning a result
list: the caller either gets the full list of per-task return values or an
exception — there is no value that carries "N-1 results plus one failure".
`poolStarmap` models that observable behaviour (the error of the
earliest-index failed task propagates; with exactly one failing task this is
that task's exception). -/

def poolStarmap {α β ε : Type} (task : α → Except ε β) : List α → Except ε (List β)
  | [] => .ok []
  | x :: xs =>
    match task x with
    | .error e => .error e
    | .ok b =>
      match poolStarmap task xs with
      | .error e => .error e
      | .ok bs => .ok (b :: bs)

/-- The fan-out/collection phase of `docking_pipeline`: `pool.starmap` over
the selected cluster ids, whose result list line 178 then consumes. -/
def docking_pipeline_results {β ε : Type} (task : Nat → Except ε β)
    (clusterIds : List Nat) : Except ε (List β) :=
  poolStarmap task clusterIds

/-- A concrete task family in which exactly cluster 1 fails. -/
def forcedFailTask (k : Nat) : Except String Nat :=
  if k = 1 then .error "forced failure" else .ok k

/-! ### Per-cluster task tail (`run_docking.py`,
`run_haddock_docking_for_cluster` lines 91-107)

`merged_df` is initialised to `None` (line 93); `representative_structure_path`
is a function-local name with no initialisation, assigned only at line 101
inside the `try` block of the `os.path.exists` branch.  The final
`return merged_df, representative_structure_path` reads both locals; reading
an unassigned local raises `UnboundLocalError`.  `analysis` bundles the
outcome of lines 98-101: `.ok (df, p)` when `run_haddock_analysis`,
`parse_cluster_score` and `get_representative_structure` all succeed (`df`
the returned frame, `p` the `representative_structure_path` attribute, which
is `None` when the merge was empty), `.error msg` when any of them raises
(caught at line 102 and only printed). -/

inductive PyExc where
  | unboundLocalError (name : String)
deriving Repr, DecidableEq

def run_haddock_docking_tail {DF : Type} (dirExists : Bool)
    (analysis : Except String (DF × Option String)) :
    Except PyExc (Option DF × Option String) :=
  let state : Option DF × Option (Option String) :=
    if dirExists then
      match analysis with
      | .ok (df, p) => (some df, some p)
      | .error _ => (none, none)
    else (none, none)
  match state.2 with
  | some p => .ok (state.1, p)
  | none => .error (.unboundLocalError "representative_structure_path")

/-! ### Cluster score file (`dockmodules/haddock_analysis.py`,
`parse_cluster_score`)

Python floats again: scores live in `ℚ` extended with the `float('inf')`,
`float('-inf')` and `float('nan')` values that `float(tokens[1])` can
produce, with Python's `<` (any comparison against NaN is false).
`parsePyFloat` models `float(str)` on a whitespace-free token: optional
sign, then `inf`/`infinity`/`nan` (case-insensitive) or a decimal literal
with an optional exponent (digit-group underscores, accepted by Python
since 3.6, are not modelled; they cannot occur in the HADDOCK score files
this parses). -/

inductive PyFloat where
  | finite (q : ℚ)
  | inf
  | ninf
  | nan
deriving Repr, DecidableEq

def PyFloat.isFinite : PyFloat → Bool
  | .finite _ => true
  | _ => false

/-- Python `<` on floats. -/
def pyLt : PyFloat → PyFloat → Bool
  | .nan, _ => false
  | _, .nan => false
  | .finite a, .finite b => decide (a < b)
  | .finite _, .inf => true
  | .finite _, .ninf => false
  | .inf, _ => false
  | .ninf, .ninf => false
  | .ninf, _ => true

def PyFloat.neg : PyFloat → PyFloat
  | .finite q => .finite (-q)
  | .inf => .ninf
  | .ninf => .inf
  | .nan => .nan

/-- Split a token at the first `e`/`E` (exponent marker). -/
def splitExp : List Char → List Char × Option (List Char)
  | [] => ([], none)
  | c :: rest =>
    if c == 'e' || c == 'E' then ([], some rest)
    else
      let (m, ex) := splitExp rest
      (c :: m, ex)

/-- Decimal mantissa `digits [. digits]` with at least one digit. -/
def parseDecMantissa (cs : List Char) : Option ℚ :=
  if cs.all isNumClassChar ∧ cs.any isDigitChar ∧ cs.count '.' ≤ 1 then
    numClassFloat cs
  else none

/-- Exponent part: optional sign then a nonempty digit run. -/
def parseExpPart (cs : List Char) : Option Int :=
  match cs with
  | '+' :: ds => if !ds.isEmpty && ds.all isDigitChar then some (digitsToNat ds) else none
  | '-' :: ds => if !ds.isEmpty && ds.all isDigitChar then some (-(digitsToNat ds : Int)) else none
  | ds => if !ds.isEmpty && ds.all isDigitChar then some (digitsToNat ds) else none

def parseNumericToken (cs : List Char) : Option ℚ :=
  match splitExp cs with
  | (m, none) => parseDecMantissa m
  | (m, some ex) => do
    let mv ← parseDecMantissa m
    let ev ← parseExpPart ex
    pure (mv * (10 : ℚ) ^ ev)

def parseUnsignedPyFloat (cs : List Char) : Option PyFloat :=
  let low := cs.map Char.toLower
  if low = "inf".data ∨ low = "infinity".data then some .inf
  else if low = "nan".data then some .nan
  else (parseNumericToken cs).map PyFloat.finite

/-- Python `float(token)`; `none` models the `ValueError` branch. -/
def parsePyFloat (s : String) : Option PyFloat :=
  match s.data with
  | '+' :: rest => parseUnsignedPyFloat rest
  | '-' :: rest => (parseUnsignedPyFloat rest).map PyFloat.neg
  | cs => parseUnsignedPyFloat cs

/-- One iteration's data extraction: `none` exactly when the loop `continue`s
(blank line, `#` comment, fewer than two tokens, unparseable second token),
otherwise the `(cluster_name, score)` pair. -/
def parseDataLine (l : List Char) : Option (String × PyFloat) :=
  let line := pyStrip l
  if line.isEmpty then none
  else if line.head? = some '#' then none
  else
    match pySplitWs line with
    | t0 :: t1 :: _ =>
      match parsePyFloat t1 with
      | some score => some (t0, score)
      | none => none
    | _ => none

/-- The `score < self.best_score` update on the `(best_cluster, best_score)`
state. -/
def scoreUpd (st : Option String × PyFloat) (e : String × PyFloat) :
    Option String × PyFloat :=
  if pyLt e.2 st.2 then (some e.1, e.2) else st

/-- One line of the `parse_cluster_score` loop. -/
def scoreStep (st : Option String × PyFloat) (l : List Char) :
    Option String × PyFloat :=
  match parseDataLine l with
  | none => st
  | some e => scoreUpd st e

/-- Model of `parse_cluster_score` as a function of the score file's text: the loop
over its lines starting from `(None, float('inf'))`, returning
`(best_cluster, best_score)`.  (The `FileNotFoundError` branch exits the
process and is outside this model.) -/
def parse_cluster_score (text : String) : Option String × PyFloat :=
  (splitOnNl text.data).foldl scoreStep (none, .inf)

/-! #### Lemmas about the cluster log parser -/

theorem headerRecord_nil : headerRecord [] = none := rfl

theorem headerRecord_eq_none {l : List Char} (h : matchHeader l = none) :
    headerRecord l = none := by
  unfold headerRecord
  rw [h]

theorem splitOnNl_no_nl (a : List Char) (ha : '\n' ∉ a) : splitOnNl a = [a] := by
  induction a with
  | nil => rfl
  | cons c cs ih =>
    have hc : ¬ c = '\n' := fun h => ha (h ▸ List.mem_cons_self c cs)
    have ih' := ih (fun h => ha (List.mem_cons_of_mem c h))
    simp only [splitOnNl, if_neg hc, ih']

theorem splitOnNl_append (a b : List Char) (ha : '\n' ∉ a) :
    splitOnNl (a ++ '\n' :: b) = a :: splitOnNl b := by
  induction a with
  | nil => simp [splitOnNl]
  | cons c cs ih =>
    have hc : ¬ c = '\n' := fun h => ha (h ▸ List.mem_cons_self c cs)
    have ih' := ih (fun h => ha (List.mem_cons_of_mem c h))
    simp only [List.cons_append, splitOnNl, if_neg hc, List.append_eq, ih']

theorem parseLines_no_header (ls : List (List Char))
    (h : ∀ l ∈ ls, matchHeader (pyStrip l) = none) :
    parseLines ls none [] = .ok [] := by
  induction ls with
  | nil => rfl
  | cons l ls ih =>
    have hrec : headerRecord (pyStrip l) = none :=
      headerRecord_eq_none (h l (List.mem_cons_self l ls))
    have ih' := ih (fun x hx => h x (List.mem_cons_of_mem l hx))
    simp only [parseLines, hrec]
    split <;> exact ih'

/-! ### Claim theorems -/

/-- C2 (code_bug): the spec promises that input text with no line matching
the cluster-header pattern parses to an empty `ClusterTable` without error,
but the source instead raises: with zero records, `pd.DataFrame(clusters)`
has no columns, so the unconditional `df["Members"] = df["Members"].apply(...)`
raises `KeyError('Members')`.  This theorem evaluates the embedded code on
every header-free input text. -/
theorem C2_no_header_raises_keyerror (text : String)
    (h : ∀ l ∈ splitOnNl text.data, matchHeader (pyStrip l) = none) :
    parse_cluster_log text = .error (.keyError "Members") := by
  unfold parse_cluster_log
  rw [parseLines_no_header _ h]
  rfl

/-- C2, evaluated at the failing input `""` (the empty log text). -/
theorem C2_no_header_raises_keyerror_witness :
    parse_cluster_log "" = .error (.keyError "Members") :=
  C2_no_header_raises_keyerror "" (by
    intro l hl
    simp only [splitOnNl] at hl
    rw [List.mem_singleton.mp hl]
    rfl)

/-- C5 (confirmed): an input of one header line whose trailing member
integers are `m1, m2`, followed by one non-header line whose integer runs
are `m3, m4, m5`, parses to exactly one record whose member list is
`[m1, m2, m3, m4, m5]` — length five, header members first, continuation
members after, in textual order — serialized by `", ".join`. -/
theorem C5_header_plus_continuation (h c : String) (rec : ClusterRecord)
    (m1 m2 m3 m4 m5 : String)
    (hnl1 : '\n' ∉ h.data) (hnl2 : '\n' ∉ c.data)
    (hh : headerRecord (pyStrip h.data) = some (.ok rec))
    (hmem : rec.members = [m1, m2])
    (hc : matchHeader (pyStrip c.data) = none)
    (hcm : findallDigits (pyStrip c.data) = [m3, m4, m5]) :
    parse_cluster_log (h ++ "\n" ++ c) =
      .ok [⟨{ rec with members := [m1, m2, m3, m4, m5] },
            joinMembers [m1, m2, m3, m4, m5]⟩] := by
  have hsplit : splitOnNl (h ++ "\n" ++ c).data = [h.data, c.data] := by
    have hdata : (h ++ "\n" ++ c).data = h.data ++ '\n' :: c.data := by
      rw [String.data_append, String.data_append,
        show "\n".data = ['\n'] from rfl, List.append_assoc]
      rfl
    rw [hdata, splitOnNl_append _ _ hnl1, splitOnNl_no_nl _ hnl2]
  have hE1 : (pyStrip h.data).isEmpty = false := by
    cases hE : (pyStrip h.data).isEmpty
    · rfl
    · rw [List.isEmpty_iff.mp hE] at hh
      exact absurd hh (by rw [headerRecord_nil]; exact Option.noConfusion)
  have hE2 : (pyStrip c.data).isEmpty = false := by
    cases hE : (pyStrip c.data).isEmpty
    · rfl
    · exfalso
      rw [List.isEmpty_iff.mp hE] at hcm
      simp only [findallDigits, tokenizeRuns] at hcm
      exact List.noConfusion hcm
  have hrec2 : headerRecord (pyStrip c.data) = none := headerRecord_eq_none hc
  unfold parse_cluster_log
  rw [hsplit]
  simp only [parseLines, hE1, hE2, hh, hrec2, Bool.false_eq_true, if_false, hcm,
    Option.toList, List.nil_append, List.cons_append, hmem, List.isEmpty_cons]
  rfl

/-- C5 at a concrete log: header `"1 |    5 | 3 | 10 22"` and continuation
`" 30 41 52"`. -/
theorem C5_header_plus_continuation_witness :
    parse_cluster_log ("1 |    5 | 3 | 10 22" ++ "\n" ++ " 30 41 52") =
      .ok [⟨⟨1, 5, none, 3, none, ["10", "22", "30", "41", "52"]⟩,
            "10, 22, 30, 41, 52"⟩] :=
  C5_header_plus_continuation "1 |    5 | 3 | 10 22" " 30 41 52"
    ⟨1, 5, none, 3, none, ["10", "22"]⟩ "10" "22" "30" "41" "52"
    (by decide) (by decide)
    (by with_unfolding_all rfl) rfl
    (by with_unfolding_all rfl) (by with_unfolding_all rfl)

/-- C3 counterexample: the claim says an empty merge makes the per-cluster
step fail with `NoRepresentativeError`, but no such error exists in the
source.  With an interaction-energy table for `s1` only and a desolvation
table for `s2` only (no shared identifier, so the inner join is empty), both
`parse_ener_and_edesolv_files` and `get_representative_structure` return
normally with an empty table, and the representative-path attribute stays
`None` — a silently empty result, not an explicit error. -/
theorem C3_counterexample :
    parse_ener_and_edesolv_files [⟨"s1", (0 : ℚ)⟩] [⟨"s2", (0 : ℚ)⟩] "water" = ([], none) ∧
    get_representative_structure [⟨"s1", (0 : ℚ)⟩] [⟨"s2", (0 : ℚ)⟩] "water" = ([], none) :=
  ⟨rfl, rfl⟩

/-- C3 amended (corrected): whenever the two partial tables merge to an
empty result, the per-cluster refinement step returns an empty table with no
representative path set, raising no error at all. -/
theorem C3_empty_merge_returns_empty {α β : Type} (ener : List (EnergyRow α))
    (edesolv : List (EnergyRow β)) (directory : String)
    (h : pdMergeInner ener edesolv = []) :
    parse_ener_and_edesolv_files ener edesolv directory = ([], none) ∧
    get_representative_structure ener edesolv directory = ([], none) := by
  have hp : parse_ener_and_edesolv_files ener edesolv directory = ([], none) := by
    unfold parse_ener_and_edesolv_files
    split
    · simp only [h]
    · rfl
  refine ⟨hp, ?_⟩
  unfold get_representative_structure
  rw [hp]

/-- C3 amended, at the disjoint-identifier input of the counterexample. -/
theorem C3_empty_merge_returns_empty_witness :
    parse_ener_and_edesolv_files [⟨"e1", (1 : ℚ)⟩] [⟨"e2", (2 : ℚ)⟩] "dir" = ([], none) ∧
    get_representative_structure [⟨"e1", (1 : ℚ)⟩] [⟨"e2", (2 : ℚ)⟩] "dir" = ([], none) :=
  C3_empty_merge_returns_empty [⟨"e1", (1 : ℚ)⟩] [⟨"e2", (2 : ℚ)⟩] "dir" rfl

/-- C6 (confirmed): with interaction-energy rows for structures 1, 2, 3 and
desolvation rows for 2, 3, 4, the merge of `parse_ener_and_edesolv_files` is
the inner join on the structure-identifier column: exactly the rows for 2
and 3, in the interaction table's relative order, the unmatched identifiers
1 and 4 silently dropped, and the representative path points at the first
merged row. -/
theorem C6_merge_is_inner_join {α β : Type} (a1 a2 a3 : α) (b2 b3 b4 : β)
    (directory : String) :
    pdMergeInner [⟨"1", a1⟩, ⟨"2", a2⟩, ⟨"3", a3⟩] [⟨"2", b2⟩, ⟨"3", b3⟩, ⟨"4", b4⟩] =
      [⟨"2", a2, b2⟩, ⟨"3", a3, b3⟩] ∧
    parse_ener_and_edesolv_files [⟨"1", a1⟩, ⟨"2", a2⟩, ⟨"3", a3⟩]
        [⟨"2", b2⟩, ⟨"3", b3⟩, ⟨"4", b4⟩] directory =
      ([⟨"2", a2, b2⟩, ⟨"3", a3, b3⟩], some (directory ++ "/" ++ "2")) := by
  constructor
  · rfl
  · rfl

/-- C1 counterexample: two selected clusters, where only the task of cluster
1 fails.  The sibling task succeeds (`forcedFailTask 2 = .ok 2`), yet the
orchestrator's collection phase yields the propagated exception for the
whole run — not one `RepresentativeStructure` row plus one recorded failure
— because `pool.starmap` re-raises a worker's exception. -/
theorem C1_counterexample :
    forcedFailTask 2 = .ok 2 ∧
    docking_pipeline_results forcedFailTask [1, 2] = .error "forced failure" :=
  ⟨rfl, rfl⟩

/-- Lemma: `poolStarmap` propagates the exception of the sole failing task. -/
theorem poolStarmap_single_failure {β : Type} (task : Nat → Except String β) :
    ∀ (ids : List Nat) (k : Nat) (e : String), k ∈ ids → task k = .error e →
      (∀ j ∈ ids, j ≠ k → ∃ b, task j = .ok b) →
      poolStarmap task ids = .error e := by
  intro ids
  induction ids with
  | nil => intro k e hk _ _; exact absurd hk (List.not_mem_nil k)
  | cons j rest ih =>
    intro k e hk hfail hrest
    by_cases hjk : j = k
    · subst hjk
      unfold poolStarmap
      rw [hfail]
    · obtain ⟨b, hb⟩ := hrest j (List.mem_cons_self j rest) hjk
      have hk' : k ∈ rest := by
        rcases List.mem_cons.mp hk with h1 | h1
        · exact absurd h1.symm hjk
        · exact h1
      have ihres := ih k e hk' hfail
        (fun x hx hxk => hrest x (List.mem_cons_of_mem j hx) hxk)
      unfold poolStarmap
      rw [hb, ihres]

/-- C1 amended (corrected): when exactly one selected cluster's task raises,
`pool.starmap` re-raises that exception and the collection phase of
`docking_pipeline` crashes with it; no result list — and in particular no
list of N-1 successes with a recorded failure — is ever produced. -/
theorem C1_starmap_propagates_failure {β : Type} (task : Nat → Except String β)
    (ids : List Nat) (k : Nat) (e : String) (hk : k ∈ ids)
    (hfail : task k = .error e)
    (hrest : ∀ j ∈ ids, j ≠ k → ∃ b, task j = .ok b) :
    docking_pipeline_results task ids = .error e :=
  poolStarmap_single_failure task ids k e hk hfail hrest

/-- C1 amended, at the three-cluster run `[1, 2, 3]` with only task 1
forced to fail. -/
theorem C1_starmap_propagates_failure_witness :
    docking_pipeline_results forcedFailTask [1, 2, 3] = .error "forced failure" :=
  C1_starmap_propagates_failure forcedFailTask [1, 2, 3] 1 "forced failure"
    (by decide) rfl
    (fun j _ hne => ⟨j, by simp [forcedFailTask, hne]⟩)

/-- C9 (confirmed): whenever the analysis directory is absent, or the
analysis inside the `try` block raises (so line 101 never runs), the final
`return merged_df, representative_structure_path` of
`run_haddock_docking_for_cluster` reads the never-assigned local
`representative_structure_path` and the task dies with
`UnboundLocalError` instead of returning a pair. -/
theorem C9_unbound_local {DF : Type} (dirExists : Bool)
    (analysis : Except String (DF × Option String))
    (h : dirExists = false ∨ ∃ e, analysis = .error e) :
    run_haddock_docking_tail dirExists analysis =
      .error (.unboundLocalError "representative_structure_path") := by
  rcases h with h | ⟨e, h⟩
  · subst h; rfl
  · subst h
    unfold run_haddock_docking_tail
    cases dirExists <;> rfl

/-- C9 at a concrete state: directory absent, analysis outcome irrelevant. -/
theorem C9_unbound_local_witness :
    run_haddock_docking_tail false (.ok ((0 : Nat), none)) =
      .error (.unboundLocalError "representative_structure_path") :=
  C9_unbound_local false (.ok ((0 : Nat), none)) (Or.inl rfl)

/-! #### Interface-residue lemmas -/

/-- Membership in a sorted, mapped, filtered residue list. -/
theorem mem_sort_map_filter {p : Residue → Bool} {l : List Residue} {n : Int} :
    n ∈ List.insertionSort (· ≤ ·) ((l.filter p).map Residue.resseq) ↔
      ∃ r ∈ l, p r = true ∧ r.resseq = n := by
  rw [(List.perm_insertionSort _ _).mem_iff]
  simp only [List.mem_map, List.mem_filter]
  constructor
  · rintro ⟨r, ⟨hr, hp⟩, he⟩
    exact ⟨r, hr, hp, he⟩
  · rintro ⟨r, hr, hp, he⟩
    exact ⟨r, ⟨hr, hp⟩, he⟩

theorem residuesClose_iff {d : ℚ} (hd : 0 ≤ d) {ra rb : Residue} :
    residuesClose d ra rb = true ↔
      ∃ pa ∈ ra.atoms, ∃ pb ∈ rb.atoms, dist2 pa pb ≤ d * d := by
  unfold residuesClose atomsClose
  simp [List.any_eq_true, hd]

theorem residuesClose_mono {d1 d2 : ℚ} (h : d1 ≤ d2) {ra rb : Residue}
    (hc : residuesClose d1 ra rb = true) : residuesClose d2 ra rb = true := by
  unfold residuesClose atomsClose at hc ⊢
  simp only [List.any_eq_true, Bool.and_eq_true, decide_eq_true_eq] at hc ⊢
  obtain ⟨pa, hpa, pb, hpb, h0, hle⟩ := hc
  refine ⟨pa, hpa, pb, hpb, h0.trans h, hle.trans ?_⟩
  exact mul_le_mul h h h0 (h0.trans h)

/-- C4 (confirmed): a residue number `n` appears in the returned list of a
chain iff some residue of that chain with sequence number `n` has an atom
whose (squared) Euclidean distance to an atom of some partner-chain residue
is within the (squared) positive threshold. -/
theorem C4_interface_membership (d : ℚ) (chainA chainB : List Residue)
    (n : Int) (hd : 0 < d) :
    (n ∈ (get_interface_residues d chainA chainB).1 ↔
       ∃ ra ∈ chainA, ra.resseq = n ∧ ∃ rb ∈ chainB, ∃ pa ∈ ra.atoms,
         ∃ pb ∈ rb.atoms, dist2 pa pb ≤ d * d) ∧
    (n ∈ (get_interface_residues d chainA chainB).2 ↔
       ∃ rb ∈ chainB, rb.resseq = n ∧ ∃ ra ∈ chainA, ∃ pa ∈ ra.atoms,
         ∃ pb ∈ rb.atoms, dist2 pa pb ≤ d * d) := by
  constructor
  · rw [show (get_interface_residues d chainA chainB).1 = List.insertionSort (· ≤ ·)
      ((chainA.filter (fun ra => chainB.any (fun rb => residuesClose d ra rb))).map
        Residue.resseq) from rfl, mem_sort_map_filter]
    simp only [List.any_eq_true, residuesClose_iff hd.le]
    constructor
    · rintro ⟨ra, hra, ⟨rb, hrb, hcl⟩, he⟩
      exact ⟨ra, hra, he, rb, hrb, hcl⟩
    · rintro ⟨ra, hra, he, rb, hrb, hcl⟩
      exact ⟨ra, hra, ⟨rb, hrb, hcl⟩, he⟩
  · rw [show (get_interface_residues d chainA chainB).2 = List.insertionSort (· ≤ ·)
      ((chainB.filter (fun rb => chainA.any (fun ra => residuesClose d ra rb))).map
        Residue.resseq) from rfl, mem_sort_map_filter]
    simp only [List.any_eq_true, residuesClose_iff hd.le]
    constructor
    · rintro ⟨rb, hrb, ⟨ra, hra, hcl⟩, he⟩
      exact ⟨rb, hrb, he, ra, hra, hcl⟩
    · rintro ⟨rb, hrb, he, ra, hra, hcl⟩
      exact ⟨rb, hrb, ⟨ra, hra, hcl⟩, he⟩

/-- C4 at a concrete structure: chain A has residue 3 with an atom at the
origin, chain B has residue 2 with an atom at distance 1, threshold 2. -/
theorem C4_interface_membership_witness :
    (3 ∈ (get_interface_residues 2 [⟨3, [⟨0, 0, 0⟩]⟩] [⟨2, [⟨1, 0, 0⟩]⟩]).1 ↔
       ∃ ra ∈ [(⟨3, [⟨0, 0, 0⟩]⟩ : Residue)], ra.resseq = 3 ∧
         ∃ rb ∈ [(⟨2, [⟨1, 0, 0⟩]⟩ : Residue)], ∃ pa ∈ ra.atoms,
           ∃ pb ∈ rb.atoms, dist2 pa pb ≤ 2 * 2) ∧
    (3 ∈ (get_interface_residues 2 [⟨3, [⟨0, 0, 0⟩]⟩] [⟨2, [⟨1, 0, 0⟩]⟩]).2 ↔
       ∃ rb ∈ [(⟨2, [⟨1, 0, 0⟩]⟩ : Residue)], rb.resseq = 3 ∧
         ∃ ra ∈ [(⟨3, [⟨0, 0, 0⟩]⟩ : Residue)], ∃ pa ∈ ra.atoms,
           ∃ pb ∈ rb.atoms, dist2 pa pb ≤ 2 * 2) :=
  C4_interface_membership 2 [⟨3, [⟨0, 0, 0⟩]⟩] [⟨2, [⟨1, 0, 0⟩]⟩] 3 (by norm_num)

/-- C7 counterexample: the claim promises strictly increasing output, but a
chain may hold two residues sharing a sequence number (Biopython residue ids
differ in their insertion code).  Two residues numbered 5, both at the
origin, both within threshold 3 of the partner residue, give the output list
`[5, 5]` for chain A — sorted, but with a duplicate, hence not strictly
increasing. -/
theorem C7_counterexample :
    (get_interface_residues 3 [⟨5, [⟨0, 0, 0⟩]⟩, ⟨5, [⟨0, 0, 0⟩]⟩]
        [⟨1, [⟨1, 0, 0⟩]⟩]).1 = [5, 5] ∧
    ¬ List.Pairwise (· < ·) (get_interface_residues 3
        [⟨5, [⟨0, 0, 0⟩]⟩, ⟨5, [⟨0, 0, 0⟩]⟩] [⟨1, [⟨1, 0, 0⟩]⟩]).1 := by
  with_unfolding_all decide

/-- C7 amended (corrected): each returned sequence is sorted in
non-decreasing order, and it is strictly increasing (sorted with no
duplicates) whenever the residue sequence numbers within the corresponding
chain are pairwise distinct — the claim as stated only fails when a chain
reuses a sequence number. -/
theorem C7_sorted_dedup (d : ℚ) (chainA chainB : List Residue) :
    List.Sorted (· ≤ ·) (get_interface_residues d chainA chainB).1 ∧
    List.Sorted (· ≤ ·) (get_interface_residues d chainA chainB).2 ∧
    ((chainA.map Residue.resseq).Nodup →
      List.Pairwise (· < ·) (get_interface_residues d chainA chainB).1) ∧
    ((chainB.map Residue.resseq).Nodup →
      List.Pairwise (· < ·) (get_interface_residues d chainA chainB).2) := by
  have strict : ∀ (l : List Residue) (p : Residue → Bool),
      (l.map Residue.resseq).Nodup →
      List.Pairwise (· < ·)
        (List.insertionSort (· ≤ ·) ((l.filter p).map Residue.resseq)) := by
    intro l p hnd
    have hsub : ((l.filter p).map Residue.resseq).Sublist (l.map Residue.resseq) :=
      (List.filter_sublist l).map Residue.resseq
    have hnd2 : ((l.filter p).map Residue.resseq).Nodup := hnd.sublist hsub
    have hnd3 : (List.insertionSort (· ≤ ·) ((l.filter p).map Residue.resseq)).Nodup :=
      (List.perm_insertionSort _ _).symm.nodup hnd2
    have hsorted : List.Sorted (· ≤ ·)
        (List.insertionSort (· ≤ ·) ((l.filter p).map Residue.resseq)) :=
      List.sorted_insertionSort _ _
    exact (hsorted.and hnd3).imp (fun h => lt_of_le_of_ne h.1 h.2)
  exact ⟨List.sorted_insertionSort _ _, List.sorted_insertionSort _ _,
    strict chainA _, strict chainB _⟩

/-- C7 amended, at a chain pair with distinct residue numbers: both outputs
sorted and strictly increasing. -/
theorem C7_sorted_dedup_witness :
    List.Sorted (· ≤ ·) (get_interface_residues 8 [⟨3, [⟨0, 0, 0⟩]⟩, ⟨9, [⟨2, 0, 0⟩]⟩]
      [⟨2, [⟨4, 0, 0⟩]⟩]).1 ∧
    List.Sorted (· ≤ ·) (get_interface_residues 8 [⟨3, [⟨0, 0, 0⟩]⟩, ⟨9, [⟨2, 0, 0⟩]⟩]
      [⟨2, [⟨4, 0, 0⟩]⟩]).2 ∧
    List.Pairwise (· < ·) (get_interface_residues 8 [⟨3, [⟨0, 0, 0⟩]⟩, ⟨9, [⟨2, 0, 0⟩]⟩]
      [⟨2, [⟨4, 0, 0⟩]⟩]).1 ∧
    List.Pairwise (· < ·) (get_interface_residues 8 [⟨3, [⟨0, 0, 0⟩]⟩, ⟨9, [⟨2, 0, 0⟩]⟩]
      [⟨2, [⟨4, 0, 0⟩]⟩]).2 := by
  have T := C7_sorted_dedup 8 [⟨3, [⟨0, 0, 0⟩]⟩, ⟨9, [⟨2, 0, 0⟩]⟩] [⟨2, [⟨4, 0, 0⟩]⟩]
  exact ⟨T.1, T.2.1, T.2.2.1 (by decide), T.2.2.2 (by decide)⟩

/-- C8 (confirmed): enlarging the distance threshold can only enlarge each
chain's interface residue set — for `d1 < d2` every residue number reported
at `d1` is also reported at `d2`. -/
theorem C8_threshold_monotone (d1 d2 : ℚ) (chainA chainB : List Residue)
    (hd : d1 < d2) (n : Int) :
    (n ∈ (get_interface_residues d1 chainA chainB).1 →
      n ∈ (get_interface_residues d2 chainA chainB).1) ∧
    (n ∈ (get_interface_residues d1 chainA chainB).2 →
      n ∈ (get_interface_residues d2 chainA chainB).2) := by
  constructor
  · rw [show (get_interface_residues d1 chainA chainB).1 = List.insertionSort (· ≤ ·)
      ((chainA.filter (fun ra => chainB.any (fun rb => residuesClose d1 ra rb))).map
        Residue.resseq) from rfl,
      show (get_interface_residues d2 chainA chainB).1 = List.insertionSort (· ≤ ·)
      ((chainA.filter (fun ra => chainB.any (fun rb => residuesClose d2 ra rb))).map
        Residue.resseq) from rfl, mem_sort_map_filter, mem_sort_map_filter]
    rintro ⟨ra, hra, hp, he⟩
    refine ⟨ra, hra, ?_, he⟩
    simp only [List.any_eq_true] at hp ⊢
    obtain ⟨rb, hrb, hcl⟩ := hp
    exact ⟨rb, hrb, residuesClose_mono hd.le hcl⟩
  · rw [show (get_interface_residues d1 chainA chainB).2 = List.insertionSort (· ≤ ·)
      ((chainB.filter (fun rb => chainA.any (fun ra => residuesClose d1 ra rb))).map
        Residue.resseq) from rfl,
      show (get_interface_residues d2 chainA chainB).2 = List.insertionSort (· ≤ ·)
      ((chainB.filter (fun rb => chainA.any (fun ra => residuesClose d2 ra rb))).map
        Residue.resseq) from rfl, mem_sort_map_filter, mem_sort_map_filter]
    rintro ⟨rb, hrb, hp, he⟩
    refine ⟨rb, hrb, ?_, he⟩
    simp only [List.any_eq_true] at hp ⊢
    obtain ⟨ra, hra, hcl⟩ := hp
    exact ⟨ra, hra, residuesClose_mono hd.le hcl⟩

/-- C8 at a concrete structure: thresholds 2 < 5; residue 3's membership in
the chain-A result at threshold 2 is carried over to threshold 5. -/
theorem C8_threshold_monotone_witness :
    3 ∈ (get_interface_residues 5 [⟨3, [⟨0, 0, 0⟩]⟩] [⟨2, [⟨1, 0, 0⟩]⟩]).1 :=
  (C8_threshold_monotone 2 5 [⟨3, [⟨0, 0, 0⟩]⟩] [⟨2, [⟨1, 0, 0⟩]⟩]
    (by norm_num) 3).1 (by with_unfolding_all decide)

/-! #### Cluster score lemmas -/

theorem pyLt_finite {a b : ℚ} : pyLt (.finite a) (.finite b) = true ↔ a < b := by
  simp [pyLt]

theorem pyLt_finite_inf {a : ℚ} : pyLt (.finite a) .inf = true := rfl

/-- The line loop equals the fold of the score update over the surviving
(non-skipped) data entries: comment lines, blank lines, short lines and
lines with an unparseable score leave the state untouched. -/
theorem foldl_scoreStep_filterMap (ls : List (List Char)) :
    ∀ st, ls.foldl scoreStep st = (ls.filterMap parseDataLine).foldl scoreUpd st := by
  induction ls with
  | nil => intro _; rfl
  | cons l ls ih =>
    intro st
    rw [List.foldl_cons, List.filterMap_cons]
    cases hp : parseDataLine l with
    | none =>
      have hstep : scoreStep st l = st := by unfold scoreStep; rw [hp]
      rw [hstep]
      exact ih st
    | some e =>
      have hstep : scoreStep st l = scoreUpd st e := by unfold scoreStep; rw [hp]
      rw [hstep, List.foldl_cons]
      exact ih _

theorem pyLt_finite_false {a b : ℚ} : pyLt (.finite a) (.finite b) = false ↔ ¬ a < b := by
  simp [pyLt]

theorem PyFloat.isFinite_exists {x : PyFloat} (h : x.isFinite = true) :
    ∃ q, x = .finite q := by
  cases x with
  | finite q => exact ⟨q, rfl⟩
  | inf => exact absurd h (by simp [PyFloat.isFinite])
  | ninf => exact absurd h (by simp [PyFloat.isFinite])
  | nan => exact absurd h (by simp [PyFloat.isFinite])

/-- The best-score fold over finite-score entries selects the earliest entry
achieving the strictly smallest score: it is strictly below everything
before it, and nothing in the list is strictly below it. -/
theorem scoreFold_first_min : ∀ (es : List (String × PyFloat)),
    (∀ e ∈ es, e.2.isFinite = true) →
    (es = [] ∧ es.foldl scoreUpd (none, .inf) = (none, .inf)) ∨
    (∃ pre e post, es = pre ++ e :: post ∧
      es.foldl scoreUpd (none, .inf) = (some e.1, e.2) ∧
      (∀ f ∈ pre, pyLt e.2 f.2 = true) ∧
      (∀ f ∈ es, pyLt f.2 e.2 = false)) := by
  intro es
  induction es using List.reverseRecOn with
  | nil => intro _; exact Or.inl ⟨rfl, rfl⟩
  | append_singleton es en ih =>
    intro hfin
    have hfin' : ∀ e ∈ es, e.2.isFinite = true :=
      fun e he => hfin e (List.mem_append_left _ he)
    obtain ⟨a, ha⟩ := PyFloat.isFinite_exists
      (hfin en (List.mem_append_right _ (List.mem_singleton.mpr rfl)))
    rw [List.foldl_append, List.foldl_cons, List.foldl_nil]
    rcases ih hfin' with ⟨hnil, hres⟩ | ⟨pre, e, post, hsplit, hres, hpre, hall⟩
    · subst hnil
      right
      refine ⟨[], en, [], rfl, ?_, fun f hf => absurd hf (List.not_mem_nil f), ?_⟩
      · rw [List.foldl_nil] at hres
        rw [hres]
        unfold scoreUpd
        rw [ha]
        rfl
      · intro f hf
        rw [List.mem_singleton.mp hf, ha]
        simp [pyLt]
    · obtain ⟨c, hc⟩ := PyFloat.isFinite_exists
        (hfin' e (hsplit ▸ List.mem_append_right pre (List.mem_cons_self e post)))
      right
      rw [hres]
      cases hlt : pyLt en.2 e.2 with
      | true =>
        have hac : a < c := by
          rw [ha, hc] at hlt
          exact pyLt_finite.mp hlt
        refine ⟨es, en, [], rfl, ?_, ?_, ?_⟩
        · unfold scoreUpd
          rw [hlt]
          simp
        · intro f hf
          obtain ⟨b, hb⟩ := PyFloat.isFinite_exists (hfin' f hf)
          have hcb : c ≤ b := by
            have := hall f hf
            rw [hb, hc] at this
            exact le_of_not_lt (pyLt_finite_false.mp this)
          rw [ha, hb]
          exact pyLt_finite.mpr (lt_of_lt_of_le hac hcb)
        · intro f hf
          rcases List.mem_append.mp hf with hf | hf
          · obtain ⟨b, hb⟩ := PyFloat.isFinite_exists (hfin' f hf)
            have hcb : c ≤ b := by
              have := hall f hf
              rw [hb, hc] at this
              exact le_of_not_lt (pyLt_finite_false.mp this)
            rw [ha, hb]
            exact pyLt_finite_false.mpr (not_lt_of_gt (lt_of_lt_of_le hac hcb))
          · rw [List.mem_singleton.mp hf, ha]
            exact pyLt_finite_false.mpr (lt_irrefl a)
      | false =>
        refine ⟨pre, e, post ++ [en], ?_, ?_, hpre, ?_⟩
        · rw [hsplit, List.append_assoc]
          rfl
        · unfold scoreUpd
          rw [hlt]
          simp
        · intro f hf
          rcases List.mem_append.mp hf with hf | hf
          · exact hall f hf
          · rw [List.mem_singleton.mp hf]
            exact hlt

/-- C10 (confirmed): `parse_cluster_score` (i) folds the best-score update
over exactly the data entries that survive the skip rules (comments, blanks,
short lines, unparseable scores are ignored); (ii) returns
`(None, float('inf'))` when no valid data line exists; (iii) when all
surviving scores are finite, returns the cluster name and score of the
earliest line achieving the strictly smallest score — it beats every earlier
entry strictly, and no entry beats it. -/
theorem C10_best_score_selection (text : String) :
    parse_cluster_score text =
      ((splitOnNl text.data).filterMap parseDataLine).foldl scoreUpd (none, .inf) ∧
    ((splitOnNl text.data).filterMap parseDataLine = [] →
      parse_cluster_score text = (none, .inf)) ∧
    ((∀ e ∈ (splitOnNl text.data).filterMap parseDataLine, e.2.isFinite = true) →
      (splitOnNl text.data).filterMap parseDataLine ≠ [] →
      ∃ pre e post,
        (splitOnNl text.data).filterMap parseDataLine = pre ++ e :: post ∧
        parse_cluster_score text = (some e.1, e.2) ∧
        (∀ f ∈ pre, pyLt e.2 f.2 = true) ∧
        (∀ f ∈ (splitOnNl text.data).filterMap parseDataLine, pyLt f.2 e.2 = false)) := by
  have h1 : parse_cluster_score text =
      ((splitOnNl text.data).filterMap parseDataLine).foldl scoreUpd (none, .inf) :=
    foldl_scoreStep_filterMap (splitOnNl text.data) (none, .inf)
  refine ⟨h1, ?_, ?_⟩
  · intro he
    rw [h1, he]
    rfl
  · intro hfin hne
    rcases scoreFold_first_min _ hfin with ⟨hnil, _⟩ | ⟨pre, e, post, hsplit, hres, hpre, hall⟩
    · exact absurd hnil hne
    · exact ⟨pre, e, post, hsplit, h1.trans hres, hpre, hall⟩

/-- C10 at a concrete score file with comments, a blank line, a short line,
an unparseable score and a tie: the selected entry exists with the stated
minimality properties. -/
theorem C10_best_score_selection_witness :
    ∃ pre e post,
      (splitOnNl ("# cluster score\n\nfile.nam_clust2 -7.5\nbad\nfile.nam_clust1 -9.25\nfile.nam_clust4 x\nfile.nam_clust3 -9.25").data).filterMap
          parseDataLine = pre ++ e :: post ∧
      parse_cluster_score
          "# cluster score\n\nfile.nam_clust2 -7.5\nbad\nfile.nam_clust1 -9.25\nfile.nam_clust4 x\nfile.nam_clust3 -9.25" =
        (some e.1, e.2) ∧
      (∀ f ∈ pre, pyLt e.2 f.2 = true) ∧
      (∀ f ∈ (splitOnNl ("# cluster score\n\nfile.nam_clust2 -7.5\nbad\nfile.nam_clust1 -9.25\nfile.nam_clust4 x\nfile.nam_clust3 -9.25").data).filterMap
          parseDataLine, pyLt f.2 e.2 = false) :=
  (C10_best_score_selection
      "# cluster score\n\nfile.nam_clust2 -7.5\nbad\nfile.nam_clust1 -9.25\nfile.nam_clust4 x\nfile.nam_clust3 -9.25").2.2
    (by with_unfolding_all decide) (by with_unfolding_all decide)

end DockRefine
